import Mathlib

/-!
Shallow embedding of the cpprast software rasterizer core
(Color arithmetic, AABB clip math, Viewport conversion, Rasterizer
drawSprite/clear) with theorems checking the specification claims.

Floating-point coordinates are embedded as rationals: every operation the
claims touch (comparison, component-wise min/max, addition, subtraction)
is exact on the rational model.
-/

namespace CppRast

/-- Generic `min` as written in the repository's math header:
`a < b ? a : b`. -/
def cmin {α : Type} [LinearOrder α] (a b : α) : α :=
  if a < b then a else b

/-- Generic `max` as written in the repository's math header:
`a > b ? a : b`. -/
def cmax {α : Type} [LinearOrder α] (a b : α) : α :=
  if a > b then a else b

/-- Generic `clamp` from the math header: `min(max(v, minVal), maxVal)`. -/
def cclamp {α : Type} [LinearOrder α] (v minVal maxVal : α) : α :=
  cmin (cmax v minVal) maxVal

theorem cmin_eq_min {α : Type} [LinearOrder α] (a b : α) : cmin a b = min a b := by
  unfold cmin
  rcases lt_trichotomy a b with h | h | h
  · rw [if_pos h, min_eq_left h.le]
  · subst h; simp
  · rw [if_neg (not_lt.mpr h.le), min_eq_right h.le]

theorem cmax_eq_max {α : Type} [LinearOrder α] (a b : α) : cmax a b = max a b := by
  unfold cmax
  rcases lt_trichotomy b a with h | h | h
  · rw [if_pos h, max_eq_left h.le]
  · subst h; simp
  · rw [if_neg (not_lt.mpr h.le), max_eq_right h.le]

/-- Truncation toward zero, the behavior of a C++ `static_cast` from a
floating-point value to an integer type. -/
def truncQ (q : ℚ) : ℤ :=
  if 0 ≤ q then ⌊q⌋ else -⌊-q⌋

/-- Truncated remainder, the behavior of C `fmodf`: the result has the sign
of the dividend. -/
def fmodQ (x y : ℚ) : ℚ :=
  x - (truncQ (x / y) : ℚ) * y

/-- A 2-component vector of (rational-modelled) floats, standing for
`glm::vec2`. -/
structure Vec2 where
  x : ℚ
  y : ℚ
deriving DecidableEq, Repr

/-- Component-wise minimum, `glm::min` on 2-vectors. -/
def vmin (a b : Vec2) : Vec2 := ⟨cmin a.x b.x, cmin a.y b.y⟩

/-- Component-wise maximum, `glm::max` on 2-vectors. -/
def vmax (a b : Vec2) : Vec2 := ⟨cmax a.x b.x, cmax a.y b.y⟩

/-- Component-wise subtraction on 2-vectors. -/
def vsub (a b : Vec2) : Vec2 := ⟨a.x - b.x, a.y - b.y⟩

/-- Viewport: the integer-space rectangle concept, stored (as in the
source) in floating-point fields, here rationals. -/
structure Viewport where
  x : ℚ
  y : ℚ
  width : ℚ
  height : ℚ
  minDepth : ℚ
  maxDepth : ℚ
deriving DecidableEq, Repr

/-- Axis-aligned bounding box over 2D points: the clip-region primitive. -/
structure AABB where
  min : Vec2
  max : Vec2
deriving DecidableEq, Repr

namespace AABB

/-- The two-point constructor `AABB(a, b)`: re-sorts the coordinates,
`min = glm::min(a, b)`, `max = glm::max(a, b)`. -/
def ofPoints (a b : Vec2) : AABB := ⟨vmin a b, vmax a b⟩

/-- Static constructor `fromMinMax`, which simply delegates to the
two-point constructor. -/
def fromMinMax (lo hi : Vec2) : AABB := ofPoints lo hi

/-- Constructor from a Viewport: inclusive integer-pixel bounds,
`min = (x, y)` and `max = (x + width - 1, y + height - 1)`. -/
def ofViewport (v : Viewport) : AABB :=
  ⟨⟨v.x, v.y⟩, ⟨v.x + v.width - 1, v.y + v.height - 1⟩⟩

/-- Validity test: `glm::all(glm::lessThan(min, max))` — note the strict
component-wise less-than. -/
def isValid (r : AABB) : Bool :=
  decide (r.min.x < r.max.x) && decide (r.min.y < r.max.y)

/-- Center point `(min + max) * 0.5f`. -/
def center (r : AABB) : Vec2 :=
  ⟨(r.min.x + r.max.x) * (1 / 2), (r.min.y + r.max.y) * (1 / 2)⟩

/-- The mutating `clamp`: assigns `min = glm::max(min, o.min)` and
`max = glm::min(max, o.max)` directly (modelled as returning the updated
value). -/
def clamp (r o : AABB) : AABB := ⟨vmax r.min o.min, vmin r.max o.max⟩

/-- The non-mutating `clamped`: routes max-of-mins and min-of-maxes
through `fromMinMax`, hence through the re-sorting two-point
constructor. -/
def clamped (r o : AABB) : AABB :=
  fromMinMax (vmax r.min o.min) (vmin r.max o.max)

/-- Penetration vector computed on the first line of `overlap`:
`glm::min(max, o.max) - glm::max(min, o.min)`. -/
def penetration (r o : AABB) : Vec2 :=
  vsub (vmin r.max o.max) (vmax r.min o.min)

/-- Separating-axis utility `overlap`. -/
def overlap (r o : AABB) : Option Vec2 :=
  let ov := penetration r o
  if 0 < ov.x ∧ 0 < ov.y then
    if ov.x < ov.y then
      some ⟨if r.center.x < o.center.x then r.max.x - o.min.x else r.min.x - o.max.x, 0⟩
    else
      some ⟨0, if r.center.y < o.center.y then r.max.y - o.min.y else r.min.y - o.max.y⟩
  else
    none

end AABB

/-- A packed 8-bit-per-channel RGBA color; channels are natural numbers
with the intended range [0, 255]. -/
structure Color where
  r : ℕ
  g : ℕ
  b : ℕ
  a : ℕ
deriving DecidableEq, Repr, Inhabited

namespace Color

/-- The channels of a real `uint8_t` color are all below 256. -/
def InRange (c : Color) : Prop :=
  c.r ≤ 255 ∧ c.g ≤ 255 ∧ c.b ≤ 255 ∧ c.a ≤ 255

instance (c : Color) : Decidable c.InRange := by
  unfold InRange; infer_instance

/-- A C++ `static_cast` from a nonnegative int result to `uint8_t`:
reduction modulo 256. -/
def natToU8 (n : ℕ) : ℕ := n % 256

/-- A C++ `static_cast` from int to `uint8_t`: conversion modulo 256. -/
def intToU8 (i : ℤ) : ℕ := (i % 256).toNat

/-- A C++ `static_cast` from float to `uint8_t`: truncation toward zero
(the source always clamps first, so the value is in range). -/
def qToU8 (q : ℚ) : ℕ := intToU8 (truncQ q)

/-- Saturating component-wise addition: each channel is
`min(ch1 + ch2, 255)` computed in int, then cast back to a byte. -/
def add (c1 c2 : Color) : Color :=
  ⟨natToU8 (cmin (c1.r + c2.r) 255),
   natToU8 (cmin (c1.g + c2.g) 255),
   natToU8 (cmin (c1.b + c2.b) 255),
   natToU8 (cmin (c1.a + c2.a) 255)⟩

/-- Saturating component-wise subtraction: each channel is
`max(ch1 - ch2, 0)` computed in int, then cast back to a byte. -/
def sub (c1 c2 : Color) : Color :=
  ⟨intToU8 (cmax ((c1.r : ℤ) - c2.r) 0),
   intToU8 (cmax ((c1.g : ℤ) - c2.g) 0),
   intToU8 (cmax ((c1.b : ℤ) - c2.b) 0),
   intToU8 (cmax ((c1.a : ℤ) - c2.a) 0)⟩

/-- Component-wise color multiply, normalized by 255 with integer
truncation: `ch = ch1 * ch2 / 255`. -/
def mul (c1 c2 : Color) : Color :=
  ⟨natToU8 (c1.r * c2.r / 255),
   natToU8 (c1.g * c2.g / 255),
   natToU8 (c1.b * c2.b / 255),
   natToU8 (c1.a * c2.a / 255)⟩

/-- Scalar multiply: each channel is the float product clamped to
[0, 255] and truncated to a byte. -/
def smul (c : Color) (s : ℚ) : Color :=
  ⟨qToU8 (cclamp ((c.r : ℚ) * s) 0 255),
   qToU8 (cclamp ((c.g : ℚ) * s) 0 255),
   qToU8 (cclamp ((c.b : ℚ) * s) 0 255),
   qToU8 (cclamp ((c.a : ℚ) * s) 0 255)⟩

/-- Scalar division `operator/`: asserts the scalar is nonzero (modelled
as the `none` result), then multiplies by the reciprocal. -/
def div (c : Color) (s : ℚ) : Option Color :=
  if s = 0 then none else some (c.smul (1 / s))

/-- Construction from normalized floats: each channel is the float value
times 255, clamped to [0, 255] and truncated to a byte. -/
def fromFloats (r g b : ℚ) (a : ℚ := 1) : Color :=
  ⟨qToU8 (cclamp (r * 255) 0 255),
   qToU8 (cclamp (g * 255) 0 255),
   qToU8 (cclamp (b * 255) 0 255),
   qToU8 (cclamp (a * 255) 0 255)⟩

/-- Hue normalization at the top of `fromHSV`: `H = fmodf(H, 360)`, then
add 360 if negative. -/
def normHue (H : ℚ) : ℚ :=
  let H0 := fmodQ H 360
  if H0 < 0 then H0 + 360 else H0

/-- The 6-way switch of `fromHSV` on `static_cast<int>(H2)`, returning
the pre-offset (r, g, b) triple; the default case yields black. -/
def hsvSector (k : ℤ) (C X : ℚ) : ℚ × ℚ × ℚ :=
  if k = 0 then (C, X, 0)
  else if k = 1 then (X, C, 0)
  else if k = 2 then (0, C, X)
  else if k = 3 then (0, X, C)
  else if k = 4 then (X, 0, C)
  else if k = 5 then (C, 0, X)
  else (0, 0, 0)

/-- HSV to RGB conversion following the source: normalize the hue, clamp
S and V to [0, 1], hexagonal 6-sector decomposition, opaque alpha via
the `fromFloats` default. -/
def fromHSV (H S V : ℚ) : Color :=
  let H1 := normHue H
  let S1 := cclamp S 0 1
  let V1 := cclamp V 0 1
  let C := V1 * S1
  let m := V1 - C
  let H2 := H1 / 60
  let X := C * (1 - |fmodQ H2 2 - 1|)
  let rgb := hsvSector (truncQ H2) C X
  fromFloats (rgb.1 + m) (rgb.2.1 + m) (rgb.2.2 + m)

end Color

/-- Modelled from the spec: the rasterizer's clip rectangle type (the
`Rect` held in the rasterizer state is declared outside the available
sources) — an integer-space rectangle with origin and size, in the style
of the Viewport concept. -/
structure Rect where
  x : ℤ
  y : ℤ
  width : ℤ
  height : ℤ
deriving DecidableEq, Repr

/-- Modelled from the spec: `AABB::fromRect` (declared outside the
available sources) converts an integer rectangle to inclusive float
bounds exactly like the Viewport constructor,
`max = origin + size - 1`. -/
def AABB.fromRect (r : Rect) : AABB :=
  ⟨⟨(r.x : ℚ), (r.y : ℚ)⟩, ⟨(r.x : ℚ) + r.width - 1, (r.y : ℚ) + r.height - 1⟩⟩

/-- Modelled from the spec: the image abstraction (its class is declared
outside the available sources) exposes a width, a height, and a
row-major packed pixel array where pixel (x, y) sits at linear offset
y * width + x. -/
structure Image where
  width : ℕ
  height : ℕ
  data : List Color
deriving DecidableEq, Repr

/-- Modelled from the spec: `Image::getAABB` returns the image's own
bounds as an inclusive-pixel region, min (0, 0) and
max (width - 1, height - 1). -/
def Image.getAABB (img : Image) : AABB :=
  ⟨⟨0, 0⟩, ⟨(img.width : ℚ) - 1, (img.height : ℚ) - 1⟩⟩

/-- Modelled from the spec: `Image::clear` fills every pixel of the
entire buffer with the given color. -/
def Image.clear (img : Image) (c : Color) : Image :=
  ⟨img.width, img.height, img.data.map fun _ => c⟩

/-- A blend mode, as the rasterizer consumes it: a pure function from a
(tinted) source color and a destination color to the new destination
color. -/
def BlendMode : Type := Color → Color → Color

/-- Modelled from the spec: the sprite's fields, as the rasterizer's
accessors read them — a (possibly null) source image reference, a tint
color, a blend mode, an integer pixel size, and an integer UV offset. -/
structure Sprite where
  image : Option Image
  color : Color
  blendMode : BlendMode
  sizeX : ℤ
  sizeY : ℤ
  uvX : ℤ
  uvY : ℤ

/-- The rasterizer state: an optional (non-owning) color target and the
configured clip rectangle. -/
structure RasterizerState where
  colorTarget : Option Image
  clipRect : Rect

/-- Read a pixel from a packed buffer at a linear int offset.
Out-of-range access is undefined behavior in the source; it is modelled
as reading a fixed arbitrary color. -/
def getPix (l : List Color) (i : ℤ) : Color :=
  if 0 ≤ i then l.getD i.toNat default else default

/-- Write a pixel into a packed buffer at a linear int offset.
Out-of-range access is undefined behavior in the source; it is modelled
as a no-op. -/
def setPix (l : List Color) (i : ℤ) (c : Color) : List Color :=
  if 0 ≤ i then l.set i.toNat c else l

/-- `Rasterizer::clear`: if a color target is configured, clear the whole
image to the given color; otherwise do nothing. -/
def Rasterizer.clear (st : RasterizerState) (c : Color) : RasterizerState :=
  match st.colorTarget with
  | some image => { st with colorTarget := some (image.clear c) }
  | none => st

/-- The destination clip region computed per draw call: the destination
image's own bounds clamped to the configured clip rectangle. -/
def dstClip (dstImage : Image) (clipRect : Rect) : AABB :=
  (dstImage.getAABB).clamped (AABB.fromRect clipRect)

/-- The body of `Rasterizer::drawSprite` after both images have been
resolved: compute integer clipping bounds, take the degenerate-region
early exit, shift the UV origin by the clip offset, then blit row by row
(top to bottom, left to right), tinting, blending and writing each
destination pixel. -/
def drawSpriteImpl (st : RasterizerState) (sprite : Sprite)
    (srcImage dstImage : Image) (x0 y0 : ℤ) : RasterizerState :=
  let color := sprite.color
  let blendMode := sprite.blendMode
  let dstAABB := dstClip dstImage st.clipRect
  let clipLeft := cmax (truncQ dstAABB.min.x) x0
  let clipTop := cmax (truncQ dstAABB.min.y) y0
  let clipRight := cmin (truncQ dstAABB.max.x) (x0 + sprite.sizeX - 1)
  let clipBottom := cmin (truncQ dstAABB.max.y) (y0 + sprite.sizeY - 1)
  if clipLeft ≥ clipRight ∨ clipTop ≥ clipBottom then st
  else
    let uvx := sprite.uvX + (clipLeft - x0)
    let uvy := sprite.uvY + (clipTop - y0)
    let src := srcImage.data
    let sW : ℤ := (srcImage.width : ℤ)
    let dW : ℤ := (dstImage.width : ℤ)
    let newData :=
      (List.range (clipBottom - clipTop + 1).toNat).foldl (fun dst ry =>
        (List.range (clipRight - clipLeft + 1).toNat).foldl (fun dst rx =>
          let x := clipLeft + (rx : ℤ)
          let y := clipTop + (ry : ℤ)
          let u := uvx + (x - clipLeft)
          let v := uvy + (y - clipTop)
          let sC := (getPix src (v * sW + u)).mul color
          let dC := getPix dst (y * dW + x)
          setPix dst (y * dW + x) (blendMode sC dC)) dst) dstImage.data
    { st with colorTarget := some ⟨dstImage.width, dstImage.height, newData⟩ }

/-- `Rasterizer::drawSprite`: resolve the sprite's source image and the
color target; if either is missing, no-op; otherwise run the clipped
blit. -/
def Rasterizer.drawSprite (st : RasterizerState) (sprite : Sprite)
    (x0 y0 : ℤ) : RasterizerState :=
  match sprite.image, st.colorTarget with
  | some srcImage, some dstImage => drawSpriteImpl st sprite srcImage dstImage x0 y0
  | _, _ => st

/-! Helper lemmas about the source-shaped min/max. -/

theorem cmin_le_cmax {α : Type} [LinearOrder α] (a b : α) : cmin a b ≤ cmax a b := by
  rw [cmin_eq_min, cmax_eq_max]
  exact min_le_max

theorem cmin_le_left {α : Type} [LinearOrder α] (a b : α) : cmin a b ≤ a := by
  rw [cmin_eq_min]; exact min_le_left a b

theorem cmin_le_right {α : Type} [LinearOrder α] (a b : α) : cmin a b ≤ b := by
  rw [cmin_eq_min]; exact min_le_right a b

theorem left_le_cmax {α : Type} [LinearOrder α] (a b : α) : a ≤ cmax a b := by
  rw [cmax_eq_max]; exact le_max_left a b

theorem right_le_cmax {α : Type} [LinearOrder α] (a b : α) : b ≤ cmax a b := by
  rw [cmax_eq_max]; exact le_max_right a b

/-- C4 (counterexample). The claim says a degenerate region with
min = max on some axis is valid; the region with min (0,0), max (0,5)
satisfies component-wise min ≤ max, yet isValid — which tests the strict
component-wise less-than — reports it invalid. -/
theorem isValid_degenerate_cex :
    (AABB.mk ⟨0, 0⟩ ⟨0, 5⟩).min.x ≤ (AABB.mk ⟨0, 0⟩ ⟨0, 5⟩).max.x ∧
    (AABB.mk ⟨0, 0⟩ ⟨0, 5⟩).min.y ≤ (AABB.mk ⟨0, 0⟩ ⟨0, 5⟩).max.y ∧
    AABB.isValid (AABB.mk ⟨0, 0⟩ ⟨0, 5⟩) = false := by
  refine ⟨le_refl _, by norm_num, ?_⟩
  norm_num [AABB.isValid]

/-- C4 (amended). A region is valid — isValid returns true — exactly when
every component of min is strictly less than the corresponding component
of max; a degenerate region with min = max on some axis is invalid. -/
theorem isValid_iff_strict_lt (R : AABB) :
    R.isValid = true ↔ (R.min.x < R.max.x ∧ R.min.y < R.max.y) := by
  unfold AABB.isValid
  simp

/-- C8. Constructing a bounding region from a Viewport yields inclusive
bounds: min = (x, y) and max = (x + width - 1, y + height - 1) on each
axis — in particular not the half-open origin + size. -/
theorem ofViewport_inclusive_bounds (v : Viewport) :
    (AABB.ofViewport v).min.x = v.x ∧
    (AABB.ofViewport v).min.y = v.y ∧
    (AABB.ofViewport v).max.x = v.x + v.width - 1 ∧
    (AABB.ofViewport v).max.y = v.y + v.height - 1 ∧
    (AABB.ofViewport v).max.x ≠ v.x + v.width ∧
    (AABB.ofViewport v).max.y ≠ v.y + v.height := by
  refine ⟨rfl, rfl, rfl, rfl, ?_, ?_⟩ <;>
    · unfold AABB.ofViewport
      intro h
      simp only at h
      linarith

/-- C10. The non-mutating clamped always returns a region whose min
components are ≤ its max components, because it goes through the
re-sorting two-point constructor — unlike the mutating clamp, which
assigns max-of-mins and min-of-maxes directly and, on the disjoint pair
[(0,0),(1,1)] and [(2,0),(3,1)], leaves min.x > max.x. -/
theorem clamped_sorted_clamp_not :
    (∀ A B : AABB,
      (A.clamped B).min.x ≤ (A.clamped B).max.x ∧
      (A.clamped B).min.y ≤ (A.clamped B).max.y) ∧
    (AABB.clamp (AABB.mk ⟨0, 0⟩ ⟨1, 1⟩) (AABB.mk ⟨2, 0⟩ ⟨3, 1⟩)).max.x <
      (AABB.clamp (AABB.mk ⟨0, 0⟩ ⟨1, 1⟩) (AABB.mk ⟨2, 0⟩ ⟨3, 1⟩)).min.x := by
  constructor
  · intro A B
    exact ⟨cmin_le_cmax _ _, cmin_le_cmax _ _⟩
  · norm_num [AABB.clamp, vmin, vmax, cmin, cmax]

/-- C2 (counterexample). For the disjoint regions A = [(0,0),(1,1)] and
B = [(2,0),(3,1)], the claim predicts A.clamped(B) = ⟨(2,0),(1,1)⟩ with
min > max on the x-axis and isValid false; the code instead re-sorts the
coordinates through the two-point constructor, returning ⟨(1,0),(2,1)⟩,
which isValid reports as valid. -/
theorem clamped_disjoint_cex :
    AABB.clamped (AABB.mk ⟨0, 0⟩ ⟨1, 1⟩) (AABB.mk ⟨2, 0⟩ ⟨3, 1⟩) ≠
      AABB.mk ⟨2, 0⟩ ⟨1, 1⟩ ∧
    AABB.isValid
      (AABB.clamped (AABB.mk ⟨0, 0⟩ ⟨1, 1⟩) (AABB.mk ⟨2, 0⟩ ⟨3, 1⟩)) = true := by
  have h : AABB.clamped (AABB.mk ⟨0, 0⟩ ⟨1, 1⟩) (AABB.mk ⟨2, 0⟩ ⟨3, 1⟩) =
      AABB.mk ⟨1, 0⟩ ⟨2, 1⟩ := by
    norm_num [AABB.clamped, AABB.fromMinMax, AABB.ofPoints, vmin, vmax, cmin, cmax]
  rw [h]
  constructor
  · intro hc
    have := congrArg (fun r => r.min.x) hc
    norm_num at this
  · norm_num [AABB.isValid]

/-- C2 (amended). A.clamped(B) feeds the component-wise max of mins and
min of maxes through the re-sorting two-point constructor: whenever the
two candidate points are already ordered (max-of-mins ≤ min-of-maxes on
both axes, i.e. the regions intersect) the result is exactly
⟨max-of-mins, min-of-maxes⟩ as the claim states; but when the regions
are disjoint on an axis — either axis — the two coordinates are swapped
on that axis, and in every case the result satisfies min ≤ max
component-wise instead of being an invalid region. -/
theorem clamped_resorted (A B : AABB) :
    (cmax A.min.x B.min.x ≤ cmin A.max.x B.max.x →
     cmax A.min.y B.min.y ≤ cmin A.max.y B.max.y →
      A.clamped B =
        AABB.mk ⟨cmax A.min.x B.min.x, cmax A.min.y B.min.y⟩
          ⟨cmin A.max.x B.max.x, cmin A.max.y B.max.y⟩) ∧
    (cmin A.max.x B.max.x < cmax A.min.x B.min.x →
      (A.clamped B).min.x = cmin A.max.x B.max.x ∧
      (A.clamped B).max.x = cmax A.min.x B.min.x) ∧
    (cmin A.max.y B.max.y < cmax A.min.y B.min.y →
      (A.clamped B).min.y = cmin A.max.y B.max.y ∧
      (A.clamped B).max.y = cmax A.min.y B.min.y) ∧
    ((A.clamped B).min.x ≤ (A.clamped B).max.x ∧
     (A.clamped B).min.y ≤ (A.clamped B).max.y) := by
  refine ⟨?_, ?_, ?_, cmin_le_cmax _ _, cmin_le_cmax _ _⟩
  · intro hx hy
    show AABB.mk
        ⟨cmin (cmax A.min.x B.min.x) (cmin A.max.x B.max.x),
         cmin (cmax A.min.y B.min.y) (cmin A.max.y B.max.y)⟩
        ⟨cmax (cmax A.min.x B.min.x) (cmin A.max.x B.max.x),
         cmax (cmax A.min.y B.min.y) (cmin A.max.y B.max.y)⟩ = _
    simp only [cmin_eq_min, cmax_eq_max] at hx hy ⊢
    rw [min_eq_left hx, min_eq_left hy, max_eq_right hx, max_eq_right hy]
  · intro hx
    constructor
    · show cmin (cmax A.min.x B.min.x) (cmin A.max.x B.max.x) = _
      simp only [cmin_eq_min, cmax_eq_max] at hx ⊢
      exact min_eq_right hx.le
    · show cmax (cmax A.min.x B.min.x) (cmin A.max.x B.max.x) = _
      simp only [cmin_eq_min, cmax_eq_max] at hx ⊢
      exact max_eq_left hx.le
  · intro hy
    constructor
    · show cmin (cmax A.min.y B.min.y) (cmin A.max.y B.max.y) = _
      simp only [cmin_eq_min, cmax_eq_max] at hy ⊢
      exact min_eq_right hy.le
    · show cmax (cmax A.min.y B.min.y) (cmin A.max.y B.max.y) = _
      simp only [cmin_eq_min, cmax_eq_max] at hy ⊢
      exact max_eq_left hy.le

/-- C2 (witness for the amended theorem at concrete pairs): clamping
[(0,0),(4,4)] against the intersecting [(1,1),(6,6)] yields exactly
⟨max-of-mins, min-of-maxes⟩ = ⟨(1,1),(4,4)⟩; clamping [(0,0),(1,1)]
against the y-disjoint [(0,2),(1,3)] swaps the y coordinates, giving
min.y = 1 and max.y = 2. -/
theorem clamped_resorted_witness :
    (AABB.clamped (AABB.mk ⟨0, 0⟩ ⟨4, 4⟩) (AABB.mk ⟨1, 1⟩ ⟨6, 6⟩) =
      AABB.mk ⟨cmax (0 : ℚ) 1, cmax (0 : ℚ) 1⟩ ⟨cmin (4 : ℚ) 6, cmin (4 : ℚ) 6⟩) ∧
    ((AABB.clamped (AABB.mk ⟨0, 0⟩ ⟨1, 1⟩) (AABB.mk ⟨0, 2⟩ ⟨1, 3⟩)).min.y =
      cmin (1 : ℚ) 3 ∧
     (AABB.clamped (AABB.mk ⟨0, 0⟩ ⟨1, 1⟩) (AABB.mk ⟨0, 2⟩ ⟨1, 3⟩)).max.y =
      cmax (0 : ℚ) 2) :=
  ⟨(clamped_resorted (AABB.mk ⟨0, 0⟩ ⟨4, 4⟩) (AABB.mk ⟨1, 1⟩ ⟨6, 6⟩)).1
      (by norm_num [cmin, cmax]) (by norm_num [cmin, cmax]),
   (clamped_resorted (AABB.mk ⟨0, 0⟩ ⟨1, 1⟩) (AABB.mk ⟨0, 2⟩ ⟨1, 3⟩)).2.2.1
      (by norm_num [cmin, cmax])⟩

/-- C3 (counterexample). For A = [(0,0),(2,2)] and B = [(1,1),(3,3)] the
penetration depths on the two axes are equal (both 1, strictly
positive); the claim says the returned vector then lies along the
x-axis, but overlap returns (0, 1) — the y-axis branch — whose
y-component is nonzero. -/
theorem overlap_tie_cex :
    AABB.penetration (AABB.mk ⟨0, 0⟩ ⟨2, 2⟩) (AABB.mk ⟨1, 1⟩ ⟨3, 3⟩) =
      Vec2.mk 1 1 ∧
    AABB.overlap (AABB.mk ⟨0, 0⟩ ⟨2, 2⟩) (AABB.mk ⟨1, 1⟩ ⟨3, 3⟩) =
      some (Vec2.mk 0 1) ∧
    (Vec2.mk (0 : ℚ) 1).y ≠ 0 := by
  refine ⟨?_, ?_, by norm_num⟩
  · norm_num [AABB.penetration, vsub, vmin, vmax, cmin, cmax]
  · norm_num [AABB.overlap, AABB.penetration, AABB.center, vsub, vmin, vmax, cmin, cmax]

/-- C3 (amended). When the penetration depth is strictly positive on
both axes, overlap returns a separation vector along the axis of
strictly smaller penetration (the other component being 0); when the
depths are exactly equal the vector lies along the y-axis, not the
x-axis; and when some axis has no strictly positive penetration,
overlap returns the empty optional. -/
theorem overlap_axis_selection (A B : AABB) :
    (¬(0 < (AABB.penetration A B).x ∧ 0 < (AABB.penetration A B).y) →
      A.overlap B = none) ∧
    (0 < (AABB.penetration A B).x → 0 < (AABB.penetration A B).y →
      (AABB.penetration A B).x < (AABB.penetration A B).y →
      ∃ m : ℚ, A.overlap B = some (Vec2.mk m 0)) ∧
    (0 < (AABB.penetration A B).x → 0 < (AABB.penetration A B).y →
      (AABB.penetration A B).y ≤ (AABB.penetration A B).x →
      ∃ m : ℚ, A.overlap B = some (Vec2.mk 0 m)) := by
  refine ⟨?_, ?_, ?_⟩
  · intro h
    unfold AABB.overlap
    rw [if_neg h]
  · intro hx hy hlt
    unfold AABB.overlap
    rw [if_pos ⟨hx, hy⟩, if_pos hlt]
    exact ⟨_, rfl⟩
  · intro hx hy hle
    unfold AABB.overlap
    rw [if_pos ⟨hx, hy⟩, if_neg (not_lt.mpr hle)]
    exact ⟨_, rfl⟩

/-- C3 (witness for the amended theorem at concrete inputs): the
regions [(0,0),(2,10)] and [(1,0),(3,10)] penetrate by (1,10), so the
x-axis is strictly smaller and the returned vector has y = 0; for the
equal-penetration pair [(0,0),(2,2)] and [(1,1),(3,3)] the returned
vector has x = 0. -/
theorem overlap_axis_selection_witness :
    (∃ m : ℚ, AABB.overlap (AABB.mk ⟨0, 0⟩ ⟨2, 10⟩) (AABB.mk ⟨1, 0⟩ ⟨3, 10⟩) =
      some (Vec2.mk m 0)) ∧
    (∃ m : ℚ, AABB.overlap (AABB.mk ⟨0, 0⟩ ⟨2, 2⟩) (AABB.mk ⟨1, 1⟩ ⟨3, 3⟩) =
      some (Vec2.mk 0 m)) :=
  ⟨(overlap_axis_selection (AABB.mk ⟨0, 0⟩ ⟨2, 10⟩) (AABB.mk ⟨1, 0⟩ ⟨3, 10⟩)).2.1
      (by norm_num [AABB.penetration, vsub, vmin, vmax, cmin, cmax])
      (by norm_num [AABB.penetration, vsub, vmin, vmax, cmin, cmax])
      (by norm_num [AABB.penetration, vsub, vmin, vmax, cmin, cmax]),
   (overlap_axis_selection (AABB.mk ⟨0, 0⟩ ⟨2, 2⟩) (AABB.mk ⟨1, 1⟩ ⟨3, 3⟩)).2.2
      (by norm_num [AABB.penetration, vsub, vmin, vmax, cmin, cmax])
      (by norm_num [AABB.penetration, vsub, vmin, vmax, cmin, cmax])
      (by norm_num [AABB.penetration, vsub, vmin, vmax, cmin, cmax])⟩

/-- C6. Color addition and subtraction saturate: for colors with byte
channels, each channel of c1 + c2 is min(ch1 + ch2, 255) and each
channel of c1 - c2 is max(ch1 - ch2, 0) computed in unbounded integers,
and every result channel stays in [0, 255]. -/
theorem color_add_sub_saturate (c1 c2 : Color)
    (h1 : c1.InRange) (h2 : c2.InRange) :
    ((c1.add c2).r = min (c1.r + c2.r) 255 ∧
     (c1.add c2).g = min (c1.g + c2.g) 255 ∧
     (c1.add c2).b = min (c1.b + c2.b) 255 ∧
     (c1.add c2).a = min (c1.a + c2.a) 255) ∧
    (((c1.sub c2).r : ℤ) = max ((c1.r : ℤ) - (c2.r : ℤ)) 0 ∧
     ((c1.sub c2).g : ℤ) = max ((c1.g : ℤ) - (c2.g : ℤ)) 0 ∧
     ((c1.sub c2).b : ℤ) = max ((c1.b : ℤ) - (c2.b : ℤ)) 0 ∧
     ((c1.sub c2).a : ℤ) = max ((c1.a : ℤ) - (c2.a : ℤ)) 0) ∧
    (c1.add c2).InRange ∧ (c1.sub c2).InRange := by
  obtain ⟨hr1, hg1, hb1, ha1⟩ := h1
  obtain ⟨hr2, hg2, hb2, ha2⟩ := h2
  unfold Color.add Color.sub Color.InRange
  simp only [cmin_eq_min, cmax_eq_max, Color.natToU8, Color.intToU8]
  refine ⟨⟨?_, ?_, ?_, ?_⟩, ⟨?_, ?_, ?_, ?_⟩, ⟨?_, ?_, ?_, ?_⟩, ⟨?_, ?_, ?_, ?_⟩⟩ <;>
    omega

/-- C6 (witness): a concrete saturating instance, applying the theorem
at c1 = (200, 10, 255, 0) and c2 = (100, 5, 255, 0). -/
theorem color_add_sub_saturate_witness :
    (Color.add ⟨200, 10, 255, 0⟩ ⟨100, 5, 255, 0⟩).r = min (200 + 100) 255 ∧
    ((Color.sub ⟨200, 10, 255, 0⟩ ⟨100, 5, 255, 0⟩).a : ℤ) =
      max ((0 : ℤ) - (0 : ℤ)) 0 ∧
    (Color.add ⟨200, 10, 255, 0⟩ ⟨100, 5, 255, 0⟩).InRange :=
  ⟨(color_add_sub_saturate ⟨200, 10, 255, 0⟩ ⟨100, 5, 255, 0⟩
      (by decide) (by decide)).1.1,
   (color_add_sub_saturate ⟨200, 10, 255, 0⟩ ⟨100, 5, 255, 0⟩
      (by decide) (by decide)).2.1.2.2.2,
   (color_add_sub_saturate ⟨200, 10, 255, 0⟩ ⟨100, 5, 255, 0⟩
      (by decide) (by decide)).2.2.1⟩

/-- C9. Color scalar division asserts a nonzero divisor (the zero-scalar
branch is a precondition violation, modelled as the empty result); for a
nonzero scalar s, c / s multiplies by the reciprocal 1/s, each channel
being the product clamped to [0, 255] and truncated to a byte. -/
theorem color_div_assert_reciprocal (c : Color) (s : ℚ) :
    Color.div c 0 = none ∧
    (s ≠ 0 → Color.div c s = some (Color.mk
      (Color.qToU8 (cclamp ((c.r : ℚ) * (1 / s)) 0 255))
      (Color.qToU8 (cclamp ((c.g : ℚ) * (1 / s)) 0 255))
      (Color.qToU8 (cclamp ((c.b : ℚ) * (1 / s)) 0 255))
      (Color.qToU8 (cclamp ((c.a : ℚ) * (1 / s)) 0 255)))) := by
  constructor
  · unfold Color.div
    simp
  · intro h
    unfold Color.div
    rw [if_neg h]
    rfl

/-- C9 (witness): dividing (100, 200, 50, 255) by the nonzero scalar 2
yields (50, 100, 25, 127), with the alpha channel showing the
truncation of 127.5. -/
theorem color_div_witness :
    Color.div ⟨100, 200, 50, 255⟩ 2 = some ⟨50, 100, 25, 127⟩ := by
  have h := (color_div_assert_reciprocal ⟨100, 200, 50, 255⟩ 2).2 (by norm_num)
  rw [h]
  norm_num [Color.qToU8, Color.intToU8, truncQ, cclamp, cmin, cmax]
  all_goals simp

/-- Modelled from the spec: the named constant Red from the color table
defined outside the available sources. -/
def Red : Color := ⟨255, 0, 0, 255⟩

/-- Modelled from the spec: the named constant Yellow from the color
table defined outside the available sources. -/
def Yellow : Color := ⟨255, 255, 0, 255⟩

/-- Modelled from the spec: the full-intensity green the HSV round-trip
property refers to (the color table is defined outside the available
sources). -/
def Green : Color := ⟨0, 255, 0, 255⟩

/-- Modelled from the spec: the named constant Cyan from the color table
defined outside the available sources. -/
def Cyan : Color := ⟨0, 255, 255, 255⟩

/-- Modelled from the spec: the named constant Blue from the color table
defined outside the available sources. -/
def Blue : Color := ⟨0, 0, 255, 255⟩

/-- Modelled from the spec: the named constant Magenta from the color
table defined outside the available sources. -/
def Magenta : Color := ⟨255, 0, 255, 255⟩

/-- Clamping to [0, 1] is idempotent. -/
theorem cclamp01_idem (v : ℚ) : cclamp (cclamp v 0 1) 0 1 = cclamp v 0 1 := by
  simp only [cclamp, cmin_eq_min, cmax_eq_max]
  have h1 : (0 : ℚ) ≤ min (max v 0) 1 := le_min (le_max_right v 0) zero_le_one
  rw [max_eq_left h1, min_eq_left (min_le_right _ _)]

/-- C7. fromHSV forces the alpha channel to 255 for every input, the hue
normalization lands in [0, 360) (negative inputs included), S and V act
only through their clamp to [0, 1], and the 6-sector decomposition sends
the hues 0, 60, 120, 180, 240, 300 at full saturation and value exactly
to red, yellow, green, cyan, blue, magenta. -/
theorem fromHSV_spec :
    (∀ H S V : ℚ, (Color.fromHSV H S V).a = 255) ∧
    (∀ H : ℚ, 0 ≤ Color.normHue H ∧ Color.normHue H < 360) ∧
    (∀ H S V : ℚ, Color.fromHSV H S V =
      Color.fromHSV H (cclamp S 0 1) (cclamp V 0 1)) ∧
    Color.fromHSV 0 1 1 = Red ∧
    Color.fromHSV 60 1 1 = Yellow ∧
    Color.fromHSV 120 1 1 = Green ∧
    Color.fromHSV 180 1 1 = Cyan ∧
    Color.fromHSV 240 1 1 = Blue ∧
    Color.fromHSV 300 1 1 = Magenta := by
  refine ⟨?_, ?_, ?_, ?_, ?_, ?_, ?_, ?_, ?_⟩
  · intro H S V
    show Color.qToU8 (cclamp ((1 : ℚ) * 255) 0 255) = 255
    norm_num [Color.qToU8, Color.intToU8, truncQ, cclamp, cmin, cmax]
    all_goals simp
  · intro H
    unfold Color.normHue fmodQ truncQ
    have h360 : (0 : ℚ) < 360 := by norm_num
    by_cases h0 : 0 ≤ H / 360
    · rw [if_pos h0]
      have h1 := Int.floor_le (H / 360)
      have h2 := Int.lt_floor_add_one (H / 360)
      have hH : H = H / 360 * 360 := by field_simp
      have hge : 0 ≤ H - (⌊H / 360⌋ : ℚ) * 360 := by nlinarith
      have hlt : H - (⌊H / 360⌋ : ℚ) * 360 < 360 := by nlinarith
      rw [if_neg (not_lt.mpr hge)]
      exact ⟨hge, hlt⟩
    · rw [if_neg h0]
      push_neg at h0
      have h1 := Int.floor_le (-(H / 360))
      have h2 := Int.lt_floor_add_one (-(H / 360))
      have hH : H = H / 360 * 360 := by field_simp
      have hle : H - ((-⌊-(H / 360)⌋ : ℤ) : ℚ) * 360 ≤ 0 := by
        push_cast
        nlinarith
      have hgt : -360 < H - ((-⌊-(H / 360)⌋ : ℤ) : ℚ) * 360 := by
        push_cast
        nlinarith
      by_cases hneg : H - ((-⌊-(H / 360)⌋ : ℤ) : ℚ) * 360 < 0
      · rw [if_pos hneg]
        constructor <;> linarith
      · rw [if_neg hneg]
        push_neg at hneg
        constructor <;> linarith
  · intro H S V
    simp only [Color.fromHSV, cclamp01_idem]
  · norm_num [Color.fromHSV, Color.normHue, Color.hsvSector, Color.fromFloats,
      Color.qToU8, Color.intToU8, truncQ, fmodQ, cclamp, cmin, cmax, Red]
    all_goals simp
  · norm_num [Color.fromHSV, Color.normHue, Color.hsvSector, Color.fromFloats,
      Color.qToU8, Color.intToU8, truncQ, fmodQ, cclamp, cmin, cmax, Yellow]
    all_goals simp
  · norm_num [Color.fromHSV, Color.normHue, Color.hsvSector, Color.fromFloats,
      Color.qToU8, Color.intToU8, truncQ, fmodQ, cclamp, cmin, cmax, Green]
    all_goals simp
  · norm_num [Color.fromHSV, Color.normHue, Color.hsvSector, Color.fromFloats,
      Color.qToU8, Color.intToU8, truncQ, fmodQ, cclamp, cmin, cmax, Cyan]
    all_goals simp
  · norm_num [Color.fromHSV, Color.normHue, Color.hsvSector, Color.fromFloats,
      Color.qToU8, Color.intToU8, truncQ, fmodQ, cclamp, cmin, cmax, Blue]
    all_goals simp
  · norm_num [Color.fromHSV, Color.normHue, Color.hsvSector, Color.fromFloats,
      Color.qToU8, Color.intToU8, truncQ, fmodQ, cclamp, cmin, cmax, Magenta]
    all_goals simp

/-- C5. With a configured color target, clear sets every pixel of the
entire destination buffer to the given color, leaving the clip rectangle
and the buffer dimensions untouched (clearing is not clipped); with no
color target configured, clear returns the state unchanged. -/
theorem clear_full_buffer_or_noop (st : RasterizerState) (c : Color) :
    (st.colorTarget = none → Rasterizer.clear st c = st) ∧
    (∀ img : Image, st.colorTarget = some img →
      (Rasterizer.clear st c).clipRect = st.clipRect ∧
      (Rasterizer.clear st c).colorTarget = some (img.clear c) ∧
      (img.clear c).width = img.width ∧
      (img.clear c).height = img.height ∧
      (img.clear c).data.length = img.data.length ∧
      ∀ i : ℕ, i < (img.clear c).data.length →
        (img.clear c).data.getD i default = c) := by
  constructor
  · intro h
    unfold Rasterizer.clear
    rw [h]
  · intro img h
    unfold Rasterizer.clear
    rw [h]
    refine ⟨rfl, rfl, rfl, rfl, by simp [Image.clear], ?_⟩
    intro i hi
    have hi' : i < img.data.length := by simpa [Image.clear] using hi
    simp [Image.clear, List.getD_eq_getElem?_getD, List.getElem?_map,
      List.getElem?_eq_getElem hi', List.getElem?_replicate, hi']

/-- C5 (witness): clearing with no color target is the identity, and
clearing a concrete 2-pixel target replaces its buffer with the cleared
image. -/
theorem clear_full_buffer_or_noop_witness :
    Rasterizer.clear ⟨none, ⟨0, 0, 10, 10⟩⟩ ⟨0, 255, 0, 255⟩ =
      RasterizerState.mk none ⟨0, 0, 10, 10⟩ ∧
    (Rasterizer.clear ⟨some ⟨2, 1, [⟨1, 2, 3, 4⟩, ⟨5, 6, 7, 8⟩]⟩, ⟨0, 0, 10, 10⟩⟩
        ⟨0, 255, 0, 255⟩).colorTarget =
      some (Image.clear ⟨2, 1, [⟨1, 2, 3, 4⟩, ⟨5, 6, 7, 8⟩]⟩ ⟨0, 255, 0, 255⟩) :=
  ⟨(clear_full_buffer_or_noop ⟨none, ⟨0, 0, 10, 10⟩⟩ ⟨0, 255, 0, 255⟩).1 rfl,
   ((clear_full_buffer_or_noop ⟨some ⟨2, 1, [⟨1, 2, 3, 4⟩, ⟨5, 6, 7, 8⟩]⟩,
       ⟨0, 0, 10, 10⟩⟩ ⟨0, 255, 0, 255⟩).2 _ rfl).2.1⟩

/-- A sample blend mode (source copy), used only to build concrete
rasterizer inputs. -/
def srcCopyBlend : BlendMode := fun s _ => s

/-- C1 (counterexample). The claim says a sprite entirely outside the
destination bounds, or entirely outside the configured clip rectangle,
leaves the destination unchanged. Take a 4×4 destination (bounds
max.x = 3), clip rectangle (10, 0, 5, 5) (min.x = 10), and a 2×2 sprite
drawn at (5, 0): its footprint spans x ∈ [5, 6], entirely right of the
destination bounds and entirely left of the clip rectangle. But the
re-sorting clamped turns the disjoint bounds/clip pair into the
gap-spanning clip region [(3,0),(10,3)], the early exit is skipped
(left 5 < right 6, top 0 < bottom 1), and pixels 5, 6, 9 and 10 of the
destination buffer are overwritten. -/
theorem drawSprite_offscreen_cex :
    (Image.getAABB ⟨4, 4, List.replicate 16 ⟨0, 0, 0, 255⟩⟩).max.x < 5 ∧
    (5 : ℚ) + 2 - 1 < (AABB.fromRect ⟨10, 0, 5, 5⟩).min.x ∧
    Rasterizer.drawSprite
      ⟨some ⟨4, 4, List.replicate 16 ⟨0, 0, 0, 255⟩⟩, ⟨10, 0, 5, 5⟩⟩
      ⟨some ⟨2, 2, List.replicate 4 ⟨255, 0, 0, 255⟩⟩, ⟨255, 255, 255, 255⟩,
        srcCopyBlend, 2, 2, 0, 0⟩ 5 0 ≠
    RasterizerState.mk (some ⟨4, 4, List.replicate 16 ⟨0, 0, 0, 255⟩⟩)
      ⟨10, 0, 5, 5⟩ := by
  have e :
      (Rasterizer.drawSprite
        ⟨some ⟨4, 4, List.replicate 16 ⟨0, 0, 0, 255⟩⟩, ⟨10, 0, 5, 5⟩⟩
        ⟨some ⟨2, 2, List.replicate 4 ⟨255, 0, 0, 255⟩⟩, ⟨255, 255, 255, 255⟩,
          srcCopyBlend, 2, 2, 0, 0⟩ 5 0).colorTarget =
      some ⟨4, 4,
        [⟨0, 0, 0, 255⟩, ⟨0, 0, 0, 255⟩, ⟨0, 0, 0, 255⟩, ⟨0, 0, 0, 255⟩,
         ⟨0, 0, 0, 255⟩, ⟨255, 0, 0, 255⟩, ⟨255, 0, 0, 255⟩, ⟨0, 0, 0, 255⟩,
         ⟨0, 0, 0, 255⟩, ⟨255, 0, 0, 255⟩, ⟨255, 0, 0, 255⟩, ⟨0, 0, 0, 255⟩,
         ⟨0, 0, 0, 255⟩, ⟨0, 0, 0, 255⟩, ⟨0, 0, 0, 255⟩, ⟨0, 0, 0, 255⟩]⟩ := by
    norm_num [Rasterizer.drawSprite, drawSpriteImpl, dstClip, Image.getAABB,
      AABB.fromRect, AABB.clamped, AABB.fromMinMax, AABB.ofPoints, vmin, vmax,
      cmin, cmax, truncQ]
    decide
  refine ⟨by norm_num [Image.getAABB], by norm_num [AABB.fromRect], ?_⟩
  intro h
  rw [h] at e
  exact absurd e (by decide)

/-- C1 (amended). drawSprite takes the degenerate-region early exit:
once the sprite footprint at (x0, y0) is intersected — using integer
bounds — with the computed destination clip region (the destination
bounds clamped to the configured clip rectangle), if the clipped left
bound ≥ right bound or top bound ≥ bottom bound the call returns with
the state — hence the destination buffer — unchanged; in particular a
clipped region exactly one pixel wide or tall (left = right or
top = bottom) is skipped, and a sprite footprint entirely outside that
computed clip region on any side leaves the destination untouched. The
offscreen-skip guarantee is relative to the computed clip region, not
to the raw destination bounds or clip rectangle: when those two are
disjoint, the re-sorting clamped spans the gap between them and an
offscreen sprite can still be drawn. -/
theorem drawSprite_degenerate_clip (st : RasterizerState) (sprite : Sprite)
    (srcImage dstImage : Image) (x0 y0 : ℤ)
    (hsrc : sprite.image = some srcImage)
    (hdst : st.colorTarget = some dstImage) :
    ((cmax (truncQ (dstClip dstImage st.clipRect).min.x) x0 ≥
        cmin (truncQ (dstClip dstImage st.clipRect).max.x) (x0 + sprite.sizeX - 1) ∨
      cmax (truncQ (dstClip dstImage st.clipRect).min.y) y0 ≥
        cmin (truncQ (dstClip dstImage st.clipRect).max.y) (y0 + sprite.sizeY - 1)) →
      Rasterizer.drawSprite st sprite x0 y0 = st) ∧
    ((cmax (truncQ (dstClip dstImage st.clipRect).min.x) x0 =
        cmin (truncQ (dstClip dstImage st.clipRect).max.x) (x0 + sprite.sizeX - 1) ∨
      cmax (truncQ (dstClip dstImage st.clipRect).min.y) y0 =
        cmin (truncQ (dstClip dstImage st.clipRect).max.y) (y0 + sprite.sizeY - 1)) →
      Rasterizer.drawSprite st sprite x0 y0 = st) ∧
    ((truncQ (dstClip dstImage st.clipRect).max.x < x0 ∨
      x0 + sprite.sizeX - 1 < truncQ (dstClip dstImage st.clipRect).min.x ∨
      truncQ (dstClip dstImage st.clipRect).max.y < y0 ∨
      y0 + sprite.sizeY - 1 < truncQ (dstClip dstImage st.clipRect).min.y) →
      Rasterizer.drawSprite st sprite x0 y0 = st) := by
  have main :
      (cmax (truncQ (dstClip dstImage st.clipRect).min.x) x0 ≥
        cmin (truncQ (dstClip dstImage st.clipRect).max.x) (x0 + sprite.sizeX - 1) ∨
       cmax (truncQ (dstClip dstImage st.clipRect).min.y) y0 ≥
        cmin (truncQ (dstClip dstImage st.clipRect).max.y) (y0 + sprite.sizeY - 1)) →
      Rasterizer.drawSprite st sprite x0 y0 = st := by
    intro h
    simp only [Rasterizer.drawSprite, hsrc, hdst]
    simp only [drawSpriteImpl]
    rw [if_pos h]
  refine ⟨main, ?_, ?_⟩
  · intro h
    exact main (h.imp ge_of_eq ge_of_eq)
  · intro h
    apply main
    rcases h with h | h | h | h
    · exact Or.inl (le_trans (cmin_le_left _ _) (h.le.trans (right_le_cmax _ _)))
    · exact Or.inl (le_trans (cmin_le_right _ _) (h.le.trans (left_le_cmax _ _)))
    · exact Or.inr (le_trans (cmin_le_left _ _) (h.le.trans (right_le_cmax _ _)))
    · exact Or.inr (le_trans (cmin_le_right _ _) (h.le.trans (left_le_cmax _ _)))

/-- C1 (witness): a 2×2 sprite drawn at x = 10 against a 4×4 destination
with a permissive clip rectangle is entirely to the right of the
destination clip region, so the state is returned unchanged. -/
theorem drawSprite_degenerate_clip_witness :
    Rasterizer.drawSprite
      ⟨some ⟨4, 4, List.replicate 16 ⟨0, 0, 0, 255⟩⟩, ⟨0, 0, 100, 100⟩⟩
      ⟨some ⟨2, 2, List.replicate 4 ⟨255, 0, 0, 255⟩⟩, ⟨255, 255, 255, 255⟩,
        srcCopyBlend, 2, 2, 0, 0⟩ 10 0 =
    RasterizerState.mk (some ⟨4, 4, List.replicate 16 ⟨0, 0, 0, 255⟩⟩)
      ⟨0, 0, 100, 100⟩ :=
  (drawSprite_degenerate_clip
      ⟨some ⟨4, 4, List.replicate 16 ⟨0, 0, 0, 255⟩⟩, ⟨0, 0, 100, 100⟩⟩
      ⟨some ⟨2, 2, List.replicate 4 ⟨255, 0, 0, 255⟩⟩, ⟨255, 255, 255, 255⟩,
        srcCopyBlend, 2, 2, 0, 0⟩
      ⟨2, 2, List.replicate 4 ⟨255, 0, 0, 255⟩⟩
      ⟨4, 4, List.replicate 16 ⟨0, 0, 0, 255⟩⟩ 10 0 rfl rfl).2.2
    (Or.inl (by
      norm_num [dstClip, Image.getAABB, AABB.fromRect, AABB.clamped,
        AABB.fromMinMax, AABB.ofPoints, vmin, vmax, cmin, cmax, truncQ]))

end CppRast
